import Mathlib

/-
Verification of the planka-mcp authenticated API client and aggregation
operations.  Each definition is a shallow embedding of the corresponding
TypeScript function; network interaction is modelled by explicit request
traces and oracle parameters standing for server responses.
-/

set_option maxHeartbeats 1000000

/-! ## Generic list utilities

JS `Array.prototype.sort` is a stable sort driven by a comparator.  All
comparators in this code base are of the form `keyOf a - keyOf b`, i.e. they
induce a total preorder; a stable sort for a total preorder has a unique
result, so any stable sorting algorithm is a faithful model.  We use an
executable stable insertion sort. -/

/-- Insert `a` into `l`, placing it before the first element `b` with
`le a b` (stable for equal keys when used by `insertionSort`). -/
def insertSorted (le : α → α → Bool) (a : α) : List α → List α
  | [] => [a]
  | b :: bs => if le a b then a :: b :: bs else b :: insertSorted le a bs

/-- Stable insertion sort, modelling JS `Array.prototype.sort` with a
comparator that induces the total preorder `le`. -/
def insertionSort (le : α → α → Bool) : List α → List α
  | [] => []
  | a :: as => insertSorted le a (insertionSort le as)

theorem insertSorted_perm (le : α → α → Bool) (a : α) (l : List α) :
    List.Perm (insertSorted le a l) (a :: l) := by
  induction l with
  | nil => simp [insertSorted]
  | cons b bs ih =>
      simp only [insertSorted]
      by_cases h : le a b
      · rw [if_pos h]
      · rw [if_neg h]
        exact (ih.cons b).trans (List.Perm.swap a b bs)

theorem insertionSort_perm (le : α → α → Bool) (l : List α) :
    List.Perm (insertionSort le l) l := by
  induction l with
  | nil => simp [insertionSort]
  | cons a as ih =>
      exact (insertSorted_perm le a _).trans (ih.cons a)

theorem pairwise_insertSorted (le : α → α → Bool)
    (htrans : ∀ a b c, le a b = true → le b c = true → le a c = true)
    (htot : ∀ a b, le a b = true ∨ le b a = true) (a : α) (l : List α)
    (hl : List.Pairwise (fun x y => le x y = true) l) :
    List.Pairwise (fun x y => le x y = true) (insertSorted le a l) := by
  induction l with
  | nil => simp [insertSorted]
  | cons b bs ih =>
      rcases List.pairwise_cons.mp hl with ⟨hb, hbs⟩
      simp only [insertSorted]
      by_cases h : le a b
      · rw [if_pos h]
        refine List.pairwise_cons.mpr ⟨?_, hl⟩
        intro x hx
        rcases List.mem_cons.mp hx with hx | hx
        · exact hx ▸ h
        · exact htrans a b x h (hb x hx)
      · rw [if_neg h]
        refine List.pairwise_cons.mpr ⟨?_, ih hbs⟩
        intro x hx
        have hx2 := (insertSorted_perm le a bs).mem_iff.mp hx
        rcases List.mem_cons.mp hx2 with hx2 | hx2
        · rw [hx2]
          exact (htot a b).resolve_left h
        · exact hb x hx2

theorem pairwise_insertionSort (le : α → α → Bool)
    (htrans : ∀ a b c, le a b = true → le b c = true → le a c = true)
    (htot : ∀ a b, le a b = true ∨ le b a = true) (l : List α) :
    List.Pairwise (fun x y => le x y = true) (insertionSort le l) := by
  induction l with
  | nil => simp [insertionSort]
  | cons a as ih => exact pairwise_insertSorted le htrans htot a _ ih

namespace Planka

/-! ## Entity shapes (src/schemas/entities.ts)

Fields not used by any modelled operation (timestamps, avatar urls, …) are
omitted; `z.number()` positions are modelled as `Int` (all position
arithmetic in the code is on multiples of 65536, exact in doubles). -/

/-- The `ListSchema`: `name` and `position` are nullable (archive/trash lists). -/
structure BoardList where
  id : String
  boardId : String
  name : Option String
  position : Option Int
deriving DecidableEq, Repr

/-- The `CardSchema` (`type` is the PLANKA 2.0 card type string). -/
structure Card where
  id : String
  boardId : String
  listId : String
  name : String
  position : Int
  type : String
  isCompleted : Bool
deriving DecidableEq, Repr

/-- The `TaskListSchema`: checklist container, belongs to a card. -/
structure TaskList where
  id : String
  cardId : String
  name : String
  position : Int
deriving DecidableEq, Repr

/-- The `TaskSchema`: PLANKA 2.0 tasks carry `taskListId`, never a card id. -/
structure Task where
  id : String
  taskListId : String
  name : String
  position : Int
  isCompleted : Bool
deriving DecidableEq, Repr

/-- The `LabelSchema`: read-side label; `color` is an unconstrained string. -/
structure Label where
  id : String
  boardId : String
  name : Option String
  color : String
  position : Int
deriving DecidableEq, Repr

/-- The `CardLabelSchema`: junction record with its own id. -/
structure CardLabel where
  id : String
  cardId : String
  labelId : String
deriving DecidableEq, Repr

/-- The `BoardSchema` (position is non-nullable for boards). -/
structure Board where
  id : String
  projectId : String
  name : String
  position : Int
deriving DecidableEq, Repr

/-- The `ProjectSchema`. -/
structure Project where
  id : String
  name : String
deriving DecidableEq, Repr

/-! ## Request schemas (src/schemas/requests.ts)

Zod `.parse` either yields a typed value or fails; we model it as `Except`
with a message.  Only the checks the schemas actually perform are modelled:
`z.string().min(1)` (nonempty), the `CardTypeSchema` / `LabelColorSchema`
enums, and `.optional().default(v)`. -/

/-- The `CardTypeSchema = z.enum(["project", "story"])`. -/
def parseCardType (s : String) : Except String String :=
  if s == "project" || s == "story" then .ok s
  else .error "Invalid enum value for card type"

/-- The `LabelColorSchema.options`: the closed PLANKA 2.0 palette. -/
def labelColorOptions : List String :=
  ["berry-red", "pumpkin-orange", "lagoon-blue", "pink-tulip", "light-mud",
   "orange-peel", "bright-moss", "antique-blue", "dark-granite", "lagune-blue",
   "sunny-grass", "morning-sky", "light-orange", "midnight-blue", "tank-green",
   "gun-metal", "wet-moss", "red-burgundy", "light-concrete", "apricot-red",
   "desert-sand", "navy-blue", "egg-yellow", "coral-green", "light-cocoa",
   "modern-green", "piggy-red"]

/-- The `LabelColorSchema = z.enum([...])`: write-side color validation. -/
def parseLabelColor (c : String) : Except String String :=
  if labelColorOptions.contains c then .ok c
  else .error "Invalid enum value for label color"

/-- Input to `CreateCardSchema` before parsing (absent fields are `none`). -/
structure CreateCardInput where
  listId : String
  name : String
  description : Option String
  position : Option Int
  type : Option String
  dueDate : Option String
deriving DecidableEq, Repr

/-- Parsed output of `CreateCardSchema` (defaults applied). -/
structure CreateCardParsed where
  listId : String
  name : String
  description : Option String
  position : Int
  type : String
  dueDate : Option String
deriving DecidableEq, Repr

/-- The `CreateCardSchema.parse`: `name` must be nonempty,
`position: z.number().optional().default(65536)`,
`type: CardTypeSchema.optional().default("project")`. -/
def parseCreateCard (i : CreateCardInput) : Except String CreateCardParsed :=
  if i.name.length < 1 then .error "Card name required"
  else
    match i.type with
    | none =>
        .ok ⟨i.listId, i.name, i.description, i.position.getD 65536,
             "project", i.dueDate⟩
    | some t =>
        match parseCardType t with
        | .error e => .error e
        | .ok ty =>
            .ok ⟨i.listId, i.name, i.description, i.position.getD 65536,
                 ty, i.dueDate⟩

/-- Input to `CreateLabelSchema` before parsing. -/
structure CreateLabelInput where
  boardId : String
  name : String
  color : String
  position : Option Int
deriving DecidableEq, Repr

/-- Parsed output of `CreateLabelSchema`. -/
structure CreateLabelParsed where
  boardId : String
  name : String
  color : String
  position : Int
deriving DecidableEq, Repr

/-- The `CreateLabelSchema.parse`: nonempty `name`, `color: LabelColorSchema`,
`position` defaulting to 65536. -/
def parseCreateLabel (i : CreateLabelInput) : Except String CreateLabelParsed :=
  if i.name.length < 1 then .error "Label name required"
  else
    match parseLabelColor i.color with
    | .error e => .error e
    | .ok c => .ok ⟨i.boardId, i.name, c, i.position.getD 65536⟩

/-- Input to `UpdateLabelSchema` before parsing (all fields optional). -/
structure UpdateLabelInput where
  name : Option String
  color : Option String
  position : Option Int
deriving DecidableEq, Repr

/-- The `UpdateLabelSchema.parse`: optional nonempty `name`, optional
`LabelColorSchema` color. -/
def parseUpdateLabel (i : UpdateLabelInput) : Except String UpdateLabelInput :=
  match i.name with
  | some n =>
      if n.length < 1 then .error "String must contain at least 1 character"
      else
        match i.color with
        | some c =>
            match parseLabelColor c with
            | .error e => .error e
            | .ok _ => .ok i
        | none => .ok i
  | none =>
      match i.color with
      | some c =>
          match parseLabelColor c with
          | .error e => .error e
          | .ok _ => .ok i
      | none => .ok i

/-- Raw label record as it appears in an API response, before
`LabelSchema.parse`; the `color` field is an arbitrary string. -/
structure LabelRaw where
  id : String
  boardId : String
  name : Option String
  color : String
  position : Int
deriving DecidableEq, Repr

/-- The `LabelSchema.parse` on the read path: `color: z.string()` accepts any
string, so parsing a well-shaped label record never fails on `color`. -/
def parseLabelRead (r : LabelRaw) : Except String Label :=
  .ok ⟨r.id, r.boardId, r.name, r.color, r.position⟩

/-! ## Write operations and their request traces

Each operation is modelled as a function from its input (plus an oracle for
the server's response) to a result together with the list of HTTP requests
it issues, in order.  Zod validation happens before the request list is
built, so a validation failure yields an empty trace. -/

/-- HTTP requests issued by the modelled operations. -/
inductive ApiReq where
  | getCard (cardId : String)
  | postCard (listId : String) (name : String) (description : Option String)
      (position : Int) (type : String) (dueDate : Option String)
  | postLabel (boardId : String) (name : String) (color : String)
      (position : Int)
  | patchLabel (labelId : String) (body : UpdateLabelInput)
  | postTaskList (cardId : String) (name : String) (position : Int)
  | postTask (taskListId : String) (name : String) (position : Int)
  | postCardLabel (cardId : String) (labelId : String)
  | deleteCardLabel (cardLabelId : String)
  | deleteCardLabelNested (cardId : String) (cardLabelId : String)
deriving DecidableEq, Repr

/-- The `Except` success test. -/
def exOk (e : Except ε α) : Bool :=
  match e with
  | .ok _ => true
  | .error _ => false

/-- The `createCard` (src/operations/cards.ts): validate with
`CreateCardSchema.parse`, then POST `/api/lists/:listId/cards` with the
validated body (including the `type` field).  `serverCard` is the parsed
server response. -/
def createCard (i : CreateCardInput) (serverCard : Card) :
    Except String Card × List ApiReq :=
  match parseCreateCard i with
  | .error e => (.error e, [])
  | .ok v =>
      (.ok serverCard,
       [.postCard v.listId v.name v.description v.position v.type v.dueDate])

/-- The `createLabel` (labels operations): validate with
`CreateLabelSchema.parse`, then POST `/api/boards/:boardId/labels`. -/
def createLabel (i : CreateLabelInput) (serverLabel : Label) :
    Except String Label × List ApiReq :=
  match parseCreateLabel i with
  | .error e => (.error e, [])
  | .ok v => (.ok serverLabel, [.postLabel v.boardId v.name v.color v.position])

/-- The `updateLabel` (labels operations): validate with
`UpdateLabelSchema.parse`, then PATCH `/api/labels/:labelId`. -/
def updateLabel (labelId : String) (i : UpdateLabelInput) (serverLabel : Label) :
    Except String Label × List ApiReq :=
  match parseUpdateLabel i with
  | .error e => (.error e, [])
  | .ok v => (.ok serverLabel, [.patchLabel labelId v])

/-- A sample server card used to instantiate response oracles in closed
statements. -/
def sampleCard : Card :=
  ⟨"card1", "board1", "list1", "My card", 65536, "project", false⟩

/-- A sample server label used to instantiate response oracles in closed
statements. -/
def sampleLabel : Label :=
  ⟨"label1", "board1", some "Bug", "berry-red", 65536⟩

/-- C3 counterexample: a card-creation input that omits `type` does NOT fail
client-side validation; `CreateCardSchema` defaults `type` to `"project"`
and `createCard` issues the network POST. -/
theorem C3_counterexample :
    parseCreateCard ⟨"list1", "My card", none, none, none, none⟩
      = .ok ⟨"list1", "My card", none, 65536, "project", none⟩ ∧
    (createCard ⟨"list1", "My card", none, none, none, none⟩ sampleCard).2
      = [.postCard "list1" "My card" none 65536 "project" none] := by
  constructor
  · rfl
  · rfl

/-- C3 (amended): omitting `type` does not fail; the schema defaults it to
`"project"` and the outgoing request carries that default.  Supplying an
invalid `type` value fails client-side with no network request. -/
theorem C3_type_default (i : CreateCardInput) (c : Card)
    (hname : 1 ≤ i.name.length) :
    (i.type = none →
      createCard i c
        = (.ok c, [.postCard i.listId i.name i.description
            (i.position.getD 65536) "project" i.dueDate])) ∧
    (∀ t, i.type = some t → t ≠ "project" → t ≠ "story" →
      createCard i c = (.error "Invalid enum value for card type", [])) := by
  have hlt : ¬ i.name.length < 1 := by omega
  constructor
  · intro hty
    simp [createCard, parseCreateCard, hlt, hty]
  · intro t hty h1 h2
    simp [createCard, parseCreateCard, parseCardType, hlt, hty, h1, h2]

/-- Witness for `C3_type_default` at a concrete input. -/
theorem C3_type_default_witness :
    1 ≤ ("My card" : String).length ∧
    createCard ⟨"list1", "My card", none, none, none, none⟩ sampleCard
      = (.ok sampleCard,
         [.postCard "list1" "My card" none 65536 "project" none]) := by
  refine ⟨by decide, ?_⟩
  exact (C3_type_default ⟨"list1", "My card", none, none, none, none⟩
    sampleCard (by decide)).1 rfl

/-- C9: label color validation is asymmetric.  Reading a label accepts any
color string; creating or updating a label validates the color against the
closed palette and an unknown color is a local validation failure with no
network request. -/
theorem C9_label_color_asymmetry :
    (∀ r : LabelRaw,
      parseLabelRead r = .ok ⟨r.id, r.boardId, r.name, r.color, r.position⟩) ∧
    (∀ i : CreateLabelInput, 1 ≤ i.name.length →
      exOk (parseCreateLabel i) = labelColorOptions.contains i.color ∧
      (labelColorOptions.contains i.color = false →
        createLabel i sampleLabel
          = (.error "Invalid enum value for label color", []))) ∧
    (∀ u : UpdateLabelInput, ∀ c : String, u.color = some c →
      (∀ n, u.name = some n → 1 ≤ n.length) →
      exOk (parseUpdateLabel u) = labelColorOptions.contains c ∧
      (labelColorOptions.contains c = false → ∀ lid,
        updateLabel lid u sampleLabel
          = (.error "Invalid enum value for label color", []))) := by
  refine ⟨fun r => rfl, fun i hname => ?_, fun u c hc hn => ?_⟩
  · have hlt : ¬ i.name.length < 1 := by omega
    by_cases hmem : i.color ∈ labelColorOptions
    · simp [exOk, parseCreateLabel, createLabel, parseLabelColor, hlt, hmem]
    · simp [exOk, parseCreateLabel, createLabel, parseLabelColor, hlt, hmem]
  · cases hu : u.name with
    | none =>
        by_cases hmem : c ∈ labelColorOptions
        · simp [exOk, parseUpdateLabel, updateLabel, parseLabelColor, hu, hc,
            hmem]
        · simp [exOk, parseUpdateLabel, updateLabel, parseLabelColor, hu, hc,
            hmem]
    | some n =>
        have h1 : 1 ≤ n.length := hn n hu
        have hlt : ¬ n.length < 1 := by omega
        by_cases hmem : c ∈ labelColorOptions
        · simp [exOk, parseUpdateLabel, updateLabel, parseLabelColor, hu, hc,
            hmem, hlt]
        · simp [exOk, parseUpdateLabel, updateLabel, parseLabelColor, hu, hc,
            hmem, hlt]

/-- Witness for `C9_label_color_asymmetry` at concrete inputs: an unknown
color fails label creation locally, while the same color is accepted when
parsing a read response. -/
theorem C9_label_color_asymmetry_witness :
    parseLabelRead ⟨"l1", "b1", none, "ultra-violet", 1⟩
      = .ok ⟨"l1", "b1", none, "ultra-violet", 1⟩ ∧
    createLabel ⟨"b1", "Bug", "ultra-violet", none⟩ sampleLabel
      = (.error "Invalid enum value for label color", []) := by
  refine ⟨(C9_label_color_asymmetry.1 ⟨"l1", "b1", none, "ultra-violet", 1⟩), ?_⟩
  exact ((C9_label_color_asymmetry.2.1 ⟨"b1", "Bug", "ultra-violet", none⟩
    (by decide)).2 (by decide))

/-! ## Authenticated HTTP client (src/client.ts)

`PlankaClient` holds a nullable token and an expiry timestamp.  Network
interaction is modelled by a `Server` oracle: the n-th authentication POST
and the n-th main fetch get their outcome from the oracle, and the client
state counts how many of each have been performed.  Every HTTP attempt is
also recorded in an event trace. -/

/-- Typed error taxonomy (src/errors.ts); messages/bodies are dropped, the
fields relevant to control flow (status, error kind) are kept. -/
inductive PlankaError where
  | authError (status : Nat)
  | permissionError
  | notFoundError
  | validationError
  | networkError (context : String)
  | apiError (status : Nat)
deriving DecidableEq, Repr

/-- The `createPlankaError(status, body, context)`: map an HTTP status to a
typed error. -/
def createPlankaError (status : Nat) : PlankaError :=
  match status with
  | 401 => .authError 401
  | 403 => .permissionError
  | 404 => .notFoundError
  | 422 => .validationError
  | _ => .apiError status

/-- Mutable client state plus bookkeeping counters for the oracles. -/
structure ClientState where
  token : Option String
  tokenExpiresAt : Nat
  authCalls : Nat
  fetchCalls : Nat
deriving DecidableEq, Repr

/-- Server oracle: outcome of the n-th authentication POST and of the n-th
main request fetch.  `authNetFail`/`fetchNetFail` model transport-level
failures (the `catch` around `fetch`). -/
structure Server where
  authNetFail : Nat → Bool
  authStatus : Nat → Nat
  authToken : Nat → String
  fetchNetFail : Nat → Bool
  fetchStatus : Nat → Nat

/-- Trace of HTTP attempts made by the client. -/
inductive HttpEvent where
  | authAttempt (n : Nat) (status : Nat)
  | authNetFailure (n : Nat)
  | fetchAttempt (n : Nat) (token : String) (status : Nat)
  | fetchNetFailure (n : Nat) (token : String)
deriving DecidableEq, Repr

/-- JS `Response.ok`: status in [200, 300). -/
def respOk (status : Nat) : Bool :=
  200 ≤ status && status < 300

/-- JS truthiness of `this.token : string | null`: false for `null` and for
the empty string. -/
def tokenTruthy : Option String → Bool
  | none => false
  | some t => !(t == "")

/-- The `PlankaClient.authenticate()`: POST `/api/access-tokens`; on transport
failure raise a network error; on non-2xx raise `PlankaAuthError`; on
success store the token and set `tokenExpiresAt = now + 25 minutes`
(25 * 60 * 1000 ms). -/
def authenticate (srv : Server) (now : Nat) (s : ClientState) :
    Except PlankaError String × ClientState × List HttpEvent :=
  let n := s.authCalls
  let s1 : ClientState := { s with authCalls := n + 1 }
  if srv.authNetFail n then
    (.error (.networkError "auth"), s1, [.authNetFailure n])
  else
    let st := srv.authStatus n
    if respOk st then
      let tok := srv.authToken n
      (.ok tok,
       { s1 with tokenExpiresAt := now + 25 * 60 * 1000, token := some tok },
       [.authAttempt n st])
    else
      (.error (.authError st), s1, [.authAttempt n st])

/-- The `PlankaClient.getToken()`: `if (!this.token || Date.now() >=
this.tokenExpiresAt) return this.authenticate(); return this.token;`. -/
def getToken (srv : Server) (now : Nat) (s : ClientState) :
    Except PlankaError String × ClientState × List HttpEvent :=
  match s.token with
  | none => authenticate srv now s
  | some t =>
      if t == "" || s.tokenExpiresAt ≤ now then authenticate srv now s
      else (.ok t, s, [])

/-- The `PlankaClient.request` with `isRetry = true`: same flow as `request`
but the 401 branch guard `!isRetry` fails, so any non-2xx (other than 204)
is converted to a typed error without further recursion. -/
def requestRetry (srv : Server) (now : Nat) (s : ClientState) :
    Except PlankaError Unit × ClientState × List HttpEvent :=
  match getToken srv now s with
  | (.error e, s1, ev) => (.error e, s1, ev)
  | (.ok t, s1, ev) =>
      let n := s1.fetchCalls
      let s2 : ClientState := { s1 with fetchCalls := n + 1 }
      if srv.fetchNetFail n then
        (.error (.networkError "fetch"), s2, ev ++ [.fetchNetFailure n t])
      else
        let st := srv.fetchStatus n
        let ev2 := ev ++ [.fetchAttempt n t st]
        if st == 204 then (.ok (), s2, ev2)
        else if respOk st then (.ok (), s2, ev2)
        else (.error (createPlankaError st), s2, ev2)

/-- The `PlankaClient.request` with `isRetry = false` (the entry point used by
`get`/`post`/`patch`/`delete`): resolve a token, fetch, and on a 401 with a
truthy cached token clear the token and re-issue the call once with
`isRetry = true`. -/
def request (srv : Server) (now : Nat) (s : ClientState) :
    Except PlankaError Unit × ClientState × List HttpEvent :=
  match getToken srv now s with
  | (.error e, s1, ev) => (.error e, s1, ev)
  | (.ok t, s1, ev) =>
      let n := s1.fetchCalls
      let s2 : ClientState := { s1 with fetchCalls := n + 1 }
      if srv.fetchNetFail n then
        (.error (.networkError "fetch"), s2, ev ++ [.fetchNetFailure n t])
      else
        let st := srv.fetchStatus n
        let ev2 := ev ++ [.fetchAttempt n t st]
        if st == 204 then (.ok (), s2, ev2)
        else if respOk st then (.ok (), s2, ev2)
        else if st == 401 && tokenTruthy s2.token then
          let s3 : ClientState := { s2 with token := none, tokenExpiresAt := 0 }
          match requestRetry srv now s3 with
          | (r, s4, ev3) => (r, s4, ev2 ++ ev3)
        else (.error (createPlankaError st), s2, ev2)

/-- Cached-token path of `getToken`: a truthy token that has not expired is
returned with no network activity and no state change. -/
theorem getToken_cached (srv : Server) (now : Nat) (s : ClientState)
    (t : String) (h1 : s.token = some t) (h2 : t ≠ "")
    (h3 : now < s.tokenExpiresAt) :
    getToken srv now s = (.ok t, s, []) := by
  have h4 : ¬ s.tokenExpiresAt ≤ now := Nat.not_le.mpr h3
  simp [getToken, h1, h2, h4]

/-- The `getToken` performs at most one authentication POST. -/
theorem getToken_authCalls_le (srv : Server) (now : Nat) (s : ClientState) :
    (getToken srv now s).2.1.authCalls ≤ s.authCalls + 1 := by
  cases h : s.token with
  | none =>
      simp only [getToken, h]
      by_cases hnf : srv.authNetFail s.authCalls
      · simp [authenticate, hnf]
      · by_cases hok : respOk (srv.authStatus s.authCalls)
        · simp [authenticate, hnf, hok]
        · simp [authenticate, hnf, hok]
  | some t =>
      simp only [getToken, h]
      by_cases hc : (t == "" || decide (s.tokenExpiresAt ≤ now)) = true
      · rw [if_pos hc]
        by_cases hnf : srv.authNetFail s.authCalls
        · simp [authenticate, hnf]
        · by_cases hok : respOk (srv.authStatus s.authCalls)
          · simp [authenticate, hnf, hok]
          · simp [authenticate, hnf, hok]
      · rw [if_neg hc]
        simp

/-- C2: `getToken` returns the cached token with no network authentication
exactly when a (truthy) token is cached and `now` is before
`tokenExpiresAt`; otherwise it delegates to `authenticate`, which performs
exactly one authentication POST and on success sets `tokenExpiresAt` to
`now + 25 minutes`.  Consequently two `getToken` calls within the validity
window perform at most one authentication between them. -/
theorem C2_getToken_caching (srv : Server) (now : Nat) (s : ClientState)
    (hne : s.token ≠ some "") :
    (∀ t, s.token = some t → now < s.tokenExpiresAt →
      getToken srv now s = (.ok t, s, [])) ∧
    ((s.token = none ∨ s.tokenExpiresAt ≤ now) →
      getToken srv now s = authenticate srv now s ∧
      (getToken srv now s).2.1.authCalls = s.authCalls + 1 ∧
      (srv.authNetFail s.authCalls = false →
       respOk (srv.authStatus s.authCalls) = true →
       getToken srv now s
         = (.ok (srv.authToken s.authCalls),
            { s with token := some (srv.authToken s.authCalls),
                     tokenExpiresAt := now + 25 * 60 * 1000,
                     authCalls := s.authCalls + 1 },
            [.authAttempt s.authCalls (srv.authStatus s.authCalls)]))) ∧
    (∀ now1 now2 : Nat,
      (∀ n, srv.authNetFail n = false) →
      (∀ n, respOk (srv.authStatus n) = true) →
      (∀ n, srv.authToken n ≠ "") →
      now2 < (getToken srv now1 s).2.1.tokenExpiresAt →
      (getToken srv now2 (getToken srv now1 s).2.1).2.1.authCalls
        ≤ s.authCalls + 1) := by
  refine ⟨?_, ?_, ?_⟩
  · intro t h1 h3
    have h2 : t ≠ "" := by
      intro hcon
      exact hne (hcon ▸ h1)
    exact getToken_cached srv now s t h1 h2 h3
  · intro hcase
    have hgeq : getToken srv now s = authenticate srv now s := by
      rcases hcase with hnone | hexp
      · simp [getToken, hnone]
      · cases htok : s.token with
        | none => simp [getToken, htok]
        | some t => simp [getToken, htok, hexp]
    refine ⟨hgeq, ?_, ?_⟩
    · rw [hgeq]
      by_cases hnf : srv.authNetFail s.authCalls
      · simp [authenticate, hnf]
      · by_cases hok : respOk (srv.authStatus s.authCalls)
        · simp [authenticate, hnf, hok]
        · simp [authenticate, hnf, hok]
    · intro hnf hok
      rw [hgeq]
      simp [authenticate, hnf, hok]
  · intro now1 now2 hnf hok htok hvalid
    have hfirst :
        (getToken srv now1 s).2.1.authCalls ≤ s.authCalls + 1 :=
      getToken_authCalls_le srv now1 s
    set s1 := (getToken srv now1 s).2.1 with hs1
    have hs1tok : ∃ t, s1.token = some t ∧ t ≠ "" := by
      cases hcached : s.token with
      | none =>
          have : getToken srv now1 s = authenticate srv now1 s := by
            simp [getToken, hcached]
          rw [hs1, this]
          simp [authenticate, hnf s.authCalls, hok s.authCalls]
          exact htok s.authCalls
      | some t =>
          have htne : t ≠ "" := by
            intro hcon
            exact hne (hcon ▸ hcached)
          by_cases hexp : s.tokenExpiresAt ≤ now1
          · have : getToken srv now1 s = authenticate srv now1 s := by
              simp [getToken, hcached, hexp]
            rw [hs1, this]
            simp [authenticate, hnf s.authCalls, hok s.authCalls]
            exact htok s.authCalls
          · have hlt : now1 < s.tokenExpiresAt := Nat.lt_of_not_le hexp
            have : getToken srv now1 s = (.ok t, s, []) :=
              getToken_cached srv now1 s t hcached htne hlt
            rw [hs1, this]
            exact ⟨t, hcached, htne⟩
    rcases hs1tok with ⟨t1, ht1, ht1ne⟩
    have hsecond : getToken srv now2 s1 = (.ok t1, s1, []) :=
      getToken_cached srv now2 s1 t1 ht1 ht1ne hvalid
    rw [hsecond]
    exact hfirst

/-- A concrete server oracle for closed statements: authentication always
succeeds with token "fresh-token" and every main fetch returns 401. -/
def sampleServer : Server :=
  ⟨fun _ => false, fun _ => 200, fun _ => "fresh-token",
   fun _ => false, fun _ => 401⟩

/-- Witness for `C2_getToken_caching`: with a valid cached token, the cached
path returns it unchanged with no network event. -/
theorem C2_getToken_caching_witness :
    getToken sampleServer 500 ⟨some "tok", 1000, 0, 0⟩
      = (.ok "tok", ⟨some "tok", 1000, 0, 0⟩, []) :=
  (C2_getToken_caching sampleServer 500 ⟨some "tok", 1000, 0, 0⟩
    (by decide)).1 "tok" rfl (by decide)

/-- C1: a 401 on a request made with a truthy cached token clears the token
and re-issues the call exactly once with a freshly acquired token; if the
retry also returns 401 the auth error is surfaced with no further retry
(exactly two fetches), and any non-401 error status is surfaced immediately
with a single fetch and no authentication. -/
theorem C1_request_single_retry_on_401 (srv : Server) (now : Nat)
    (s : ClientState) (t : String) (ht : s.token = some t) (ht2 : t ≠ "")
    (hv : now < s.tokenExpiresAt)
    (hfn : ∀ n, srv.fetchNetFail n = false)
    (han : ∀ n, srv.authNetFail n = false)
    (hak : ∀ n, respOk (srv.authStatus n) = true) :
    (srv.fetchStatus s.fetchCalls = 401 →
     srv.fetchStatus (s.fetchCalls + 1) = 401 →
     request srv now s
       = (.error (.authError 401),
          { s with token := some (srv.authToken s.authCalls),
                   tokenExpiresAt := now + 25 * 60 * 1000,
                   authCalls := s.authCalls + 1,
                   fetchCalls := s.fetchCalls + 2 },
          [.fetchAttempt s.fetchCalls t 401,
           .authAttempt s.authCalls (srv.authStatus s.authCalls),
           .fetchAttempt (s.fetchCalls + 1) (srv.authToken s.authCalls)
             401])) ∧
    (srv.fetchStatus s.fetchCalls = 401 →
     (respOk (srv.fetchStatus (s.fetchCalls + 1)) = true ∨
      srv.fetchStatus (s.fetchCalls + 1) = 204) →
     request srv now s
       = (.ok (),
          { s with token := some (srv.authToken s.authCalls),
                   tokenExpiresAt := now + 25 * 60 * 1000,
                   authCalls := s.authCalls + 1,
                   fetchCalls := s.fetchCalls + 2 },
          [.fetchAttempt s.fetchCalls t 401,
           .authAttempt s.authCalls (srv.authStatus s.authCalls),
           .fetchAttempt (s.fetchCalls + 1) (srv.authToken s.authCalls)
             (srv.fetchStatus (s.fetchCalls + 1))])) ∧
    (srv.fetchStatus s.fetchCalls ≠ 401 →
     respOk (srv.fetchStatus s.fetchCalls) = false →
     srv.fetchStatus s.fetchCalls ≠ 204 →
     request srv now s
       = (.error (createPlankaError (srv.fetchStatus s.fetchCalls)),
          { s with fetchCalls := s.fetchCalls + 1 },
          [.fetchAttempt s.fetchCalls t (srv.fetchStatus s.fetchCalls)])) := by
  have hg : getToken srv now s = (.ok t, s, []) :=
    getToken_cached srv now s t ht ht2 hv
  have etr : tokenTruthy s.token = true := by
    simp [tokenTruthy, ht, ht2]
  have hg2 : ∀ a f : Nat,
      getToken srv now ⟨none, 0, a, f⟩
        = (.ok (srv.authToken a),
           ⟨some (srv.authToken a), now + 25 * 60 * 1000, a + 1, f⟩,
           [.authAttempt a (srv.authStatus a)]) := by
    intro a f
    simp [getToken, authenticate, han a, hak a]
  have eok401 : respOk 401 = false := by decide
  refine ⟨?_, ?_, ?_⟩
  · intro h1 h2
    simp only [request, hg]
    simp [requestRetry, hg2, hfn s.fetchCalls, hfn (s.fetchCalls + 1),
      h1, h2, etr, eok401, createPlankaError]
  · intro h1 h2
    by_cases h204b : srv.fetchStatus (s.fetchCalls + 1) = 204
    · simp only [request, hg]
      simp [requestRetry, hg2, hfn s.fetchCalls, hfn (s.fetchCalls + 1),
        h1, h204b, etr, eok401]
    · have eokb : respOk (srv.fetchStatus (s.fetchCalls + 1)) = true := by
        rcases h2 with h2 | h2
        · exact h2
        · exact absurd h2 h204b
      simp only [request, hg]
      simp [requestRetry, hg2, hfn s.fetchCalls, hfn (s.fetchCalls + 1),
        h1, h204b, eokb, etr, eok401]
  · intro h1 h2 h3
    simp only [request, hg]
    simp [hfn s.fetchCalls, h1, h2, h3]

/-- Witness for `C1_request_single_retry_on_401`: against a server that
answers 401 to every fetch, a request with a valid cached token performs
exactly one retry with the freshly acquired token and surfaces the auth
error. -/
theorem C1_request_single_retry_on_401_witness :
    request sampleServer 500 ⟨some "tok", 1000, 0, 0⟩
      = (.error (.authError 401),
         ⟨some "fresh-token", 500 + 25 * 60 * 1000, 1, 2⟩,
         [.fetchAttempt 0 "tok" 401, .authAttempt 0 200,
          .fetchAttempt 1 "fresh-token" 401]) :=
  (C1_request_single_retry_on_401 sampleServer 500 ⟨some "tok", 1000, 0, 0⟩
    "tok" rfl (by decide) (by decide) (fun _ => rfl) (fun _ => rfl)
    (fun _ => rfl)).1 rfl rfl

/-! ## Board aggregation (src/operations/boards.ts)

`getBoard` parses one board response and sorts the included entity lists;
`getBoardWithTaskCounts` follows the Task -> TaskList -> Card indirection
through two JS `Map`s, modelled as association lists with JS `Map.set` /
`Map.get` semantics. -/

/-- Included entity bag of a board response (`BoardIncludedSchema`). -/
structure BoardIncluded where
  lists : List BoardList
  cards : List Card
  labels : List Label
  cardLabels : List CardLabel
  taskLists : List TaskList
  tasks : List Task
deriving DecidableEq, Repr

/-- The `BoardDetails` as assembled by `getBoard`. -/
structure BoardDetails where
  board : Board
  lists : List BoardList
  cards : List Card
  labels : List Label
  cardLabels : List CardLabel
  taskLists : List TaskList
  tasks : List Task
deriving DecidableEq, Repr

/-- Comparator key for `(a.position ?? Infinity) - (b.position ?? Infinity)`:
a null position sorts after every numeric position, two nulls compare
equal (the JS comparator returns NaN there, which `sort` treats as 0). -/
def posInfLe (a b : Option Int) : Bool :=
  match b with
  | none => true
  | some y =>
      match a with
      | none => false
      | some x => x ≤ y

/-- List comparator used by `getBoard` for `included.lists`. -/
def boardListLe (a b : BoardList) : Bool := posInfLe a.position b.position

/-- Label comparator `a.position - b.position`. -/
def labelLe (a b : Label) : Bool := a.position ≤ b.position

/-- TaskList comparator `a.position - b.position`. -/
def taskListLe (a b : TaskList) : Bool := a.position ≤ b.position

/-- Task comparator `a.position - b.position` (used by `getCard`). -/
def taskLe (a b : Task) : Bool := a.position ≤ b.position

/-- The `getBoard`: sort lists by position with nulls last, labels and
taskLists by position; cards, cardLabels and tasks pass through unsorted. -/
def getBoard (board : Board) (included : BoardIncluded) : BoardDetails :=
  ⟨board,
   insertionSort boardListLe included.lists,
   included.cards,
   insertionSort labelLe included.labels,
   included.cardLabels,
   insertionSort taskListLe included.taskLists,
   included.tasks⟩

/-- JS `Map.set` on an association list with distinct keys: replace the
value of an existing key, else append. -/
def jsMapSet (m : List (String × β)) (k : String) (v : β) :
    List (String × β) :=
  match m with
  | [] => [(k, v)]
  | (k2, v2) :: rest =>
      if k2 == k then (k, v) :: rest else (k2, v2) :: jsMapSet rest k v

/-- JS `Map.get`. -/
def jsMapGet (m : List (String × β)) (k : String) : Option β :=
  match m with
  | [] => none
  | (k2, v2) :: rest => if k2 == k then some v2 else jsMapGet rest k

/-- The `taskListToCard`: TaskList-id -> Card-id map built by iterating the
board's taskLists. -/
def buildTaskListToCard (taskLists : List TaskList) :
    List (String × String) :=
  taskLists.foldl (fun m tl => jsMapSet m tl.id tl.cardId) []

/-- One step of the task-count fold: resolve the card via the taskList map
(skipping tasks whose taskList is unknown) and bump `{total, completed}`. -/
def taskCountsStep (m : List (String × String))
    (acc : List (String × (Nat × Nat))) (task : Task) :
    List (String × (Nat × Nat)) :=
  match jsMapGet m task.taskListId with
  | none => acc
  | some cardId =>
      let counts := (jsMapGet acc cardId).getD (0, 0)
      jsMapSet acc cardId
        (counts.1 + 1, if task.isCompleted then counts.2 + 1 else counts.2)

/-- The `taskCountsByCard`: fold the task set into per-card counters. -/
def buildTaskCountsByCard (m : List (String × String)) (tasks : List Task) :
    List (String × (Nat × Nat)) :=
  tasks.foldl (taskCountsStep m) []

/-- The `CardWithTaskCounts`: additive decoration `{...card, taskCount,
completedTaskCount}`. -/
structure CardWithTaskCounts extends Card where
  taskCount : Nat
  completedTaskCount : Nat
deriving DecidableEq, Repr

/-- Result shape of `getBoardWithTaskCounts`. -/
structure BoardWithTaskCounts where
  board : Board
  lists : List BoardList
  cards : List CardWithTaskCounts
  labels : List Label
  cardLabels : List CardLabel
deriving DecidableEq, Repr

/-- The `getBoardWithTaskCounts`: build the TaskList-id -> Card-id map, fold
tasks into per-card counters, then decorate each card (default `(0, 0)`
when a card has no counted task). -/
def getBoardWithTaskCounts (board : Board) (included : BoardIncluded) :
    BoardWithTaskCounts :=
  let details := getBoard board included
  let taskListToCard := buildTaskListToCard details.taskLists
  let taskCountsByCard := buildTaskCountsByCard taskListToCard details.tasks
  ⟨details.board, details.lists,
   details.cards.map (fun card =>
     let counts := (jsMapGet taskCountsByCard card.id).getD (0, 0)
     { toCard := card, taskCount := counts.1,
       completedTaskCount := counts.2 }),
   details.labels, details.cardLabels⟩

/-- The `boardListLe` is transitive. -/
theorem boardListLe_trans (a b c : BoardList) :
    boardListLe a b = true → boardListLe b c = true →
    boardListLe a c = true := by
  cases ha : a.position with
  | none =>
      cases hb : b.position with
      | none =>
          cases hc : c.position with
          | none => simp [boardListLe, posInfLe, ha, hb, hc]
          | some z => simp [boardListLe, posInfLe, ha, hb, hc]
      | some y =>
          cases hc : c.position with
          | none => simp [boardListLe, posInfLe, ha, hb, hc]
          | some z => simp [boardListLe, posInfLe, ha, hb, hc]
  | some x =>
      cases hb : b.position with
      | none =>
          cases hc : c.position with
          | none => simp [boardListLe, posInfLe, ha, hb, hc]
          | some z => simp [boardListLe, posInfLe, ha, hb, hc]
      | some y =>
          cases hc : c.position with
          | none => simp [boardListLe, posInfLe, ha, hb, hc]
          | some z =>
              simp only [boardListLe, posInfLe, ha, hb, hc, decide_eq_true_eq]
              omega

/-- The `boardListLe` is total. -/
theorem boardListLe_total (a b : BoardList) :
    boardListLe a b = true ∨ boardListLe b a = true := by
  cases ha : a.position with
  | none =>
      cases hb : b.position with
      | none => simp [boardListLe, posInfLe, ha, hb]
      | some y => simp [boardListLe, posInfLe, ha, hb]
  | some x =>
      cases hb : b.position with
      | none => simp [boardListLe, posInfLe, ha, hb]
      | some y =>
          simp only [boardListLe, posInfLe, ha, hb, decide_eq_true_eq]
          omega

/-- C10: the `lists` array of `getBoard` is a permutation of the included
lists, sorted by position ascending with every null-position list placed
after all numeric-position lists (null treated as positive infinity), and
`getBoardWithTaskCounts` passes this array through unchanged. -/
theorem C10_board_lists_sorted (board : Board) (included : BoardIncluded) :
    List.Perm (getBoard board included).lists included.lists ∧
    List.Pairwise (fun a b => posInfLe a.position b.position = true)
      (getBoard board included).lists ∧
    (getBoardWithTaskCounts board included).lists
      = (getBoard board included).lists := by
  refine ⟨insertionSort_perm boardListLe included.lists, ?_, rfl⟩
  exact pairwise_insertionSort boardListLe boardListLe_trans
    boardListLe_total included.lists

/-- The `any` is invariant under permutation. -/
theorem perm_any_eq {l1 l2 : List α} (h : List.Perm l1 l2) (p : α → Bool) :
    l1.any p = l2.any p := by
  rw [Bool.eq_iff_iff, List.any_eq_true, List.any_eq_true]
  constructor
  · rintro ⟨x, hx, hp⟩
    exact ⟨x, h.mem_iff.mp hx, hp⟩
  · rintro ⟨x, hx, hp⟩
    exact ⟨x, h.mem_iff.mpr hx, hp⟩

/-- Lookup after a JS `Map.set`. -/
theorem jsMapGet_set (m : List (String × β)) (k : String) (v : β)
    (k2 : String) :
    jsMapGet (jsMapSet m k v) k2
      = if k2 = k then some v else jsMapGet m k2 := by
  induction m with
  | nil =>
      by_cases h : k2 = k
      · subst h
        simp [jsMapSet, jsMapGet]
      · have h2 : ¬ k = k2 := fun hk => h hk.symm
        simp [jsMapSet, jsMapGet, h, h2]
  | cons hd rest ih =>
      obtain ⟨k3, v3⟩ := hd
      by_cases h3 : k3 = k
      · subst h3
        by_cases h2 : k2 = k3
        · subst h2
          simp [jsMapSet, jsMapGet]
        · have h2b : ¬ k3 = k2 := fun hk => h2 hk.symm
          simp [jsMapSet, jsMapGet, h2, h2b]
      · have h3b : (k3 == k) = false := by simp [h3]
        simp only [jsMapSet, h3b, Bool.false_eq_true, if_false]
        by_cases h2 : k3 = k2
        · subst h2
          simp [jsMapGet, h3]
        · have h2b : (k3 == k2) = false := by simp [h2]
          simp [jsMapGet, h2b, ih]

/-- Lookup in the TaskList -> Card map built by `foldl jsMapSet`: the value
for `x` comes from the last taskList with id `x` (JS `Map.set` overwrite
semantics). -/
theorem foldl_set_lookup (tls : List TaskList)
    (m : List (String × String)) (x : String) :
    jsMapGet (tls.foldl (fun m2 tl => jsMapSet m2 tl.id tl.cardId) m) x
      = match tls.reverse.find? (fun tl => tl.id == x) with
        | some tl => some tl.cardId
        | none => jsMapGet m x := by
  induction tls generalizing m with
  | nil => simp
  | cons tl rest ih =>
      simp only [List.foldl_cons, ih, List.reverse_cons, List.find?_append]
      cases hf : rest.reverse.find? (fun tl2 => tl2.id == x) with
      | some tl2 => simp [hf, Option.or]
      | none =>
          simp only [hf, Option.or, List.find?]
          by_cases hx : tl.id = x
          · simp [hx, jsMapGet_set]
          · have hxb : (tl.id == x) = false := by simp [hx]
            have hx2 : ¬ x = tl.id := fun hk => hx hk.symm
            simp [hxb, jsMapGet_set, hx2]

/-- When taskList ids are distinct, the map built by `buildTaskListToCard`
sends `x` to `cid` exactly when some taskList with id `x` and card `cid`
is present. -/
theorem buildTaskListToCard_lookup (tls : List TaskList)
    (hnd : (tls.map TaskList.id).Nodup) (x cid : String) :
    jsMapGet (buildTaskListToCard tls) x = some cid
      ↔ ∃ tl ∈ tls, tl.id = x ∧ tl.cardId = cid := by
  have hfold := foldl_set_lookup tls [] x
  rw [buildTaskListToCard, hfold]
  cases hf : tls.reverse.find? (fun tl => tl.id == x) with
  | none =>
      have hnone := List.find?_eq_none.mp hf
      simp only [jsMapGet]
      constructor
      · intro hcon
        exact absurd hcon (by simp)
      · rintro ⟨tl, htl, hid, hcid⟩
        exact absurd (by simp [hid] : (tl.id == x) = true)
          (hnone tl (List.mem_reverse.mpr htl))
  | some tl2 =>
      have hmem : tl2 ∈ tls := List.mem_reverse.mp (List.mem_of_find?_eq_some hf)
      have hid2 : tl2.id = x := by
        have := List.find?_some hf
        simpa using this
      constructor
      · intro hsome
        have hcid : tl2.cardId = cid := by
          simpa using hsome
        exact ⟨tl2, hmem, hid2, hcid⟩
      · rintro ⟨tl, htl, hid, hcid⟩
        have : tl2 = tl :=
          List.inj_on_of_nodup_map hnd hmem htl (hid2.trans hid.symm)
        simp [this, hcid]

/-- Effect of one `taskCountsStep` on the counters read back for `cid`. -/
theorem taskCountsStep_valGet (m : List (String × String))
    (acc : List (String × (Nat × Nat))) (t : Task) (cid : String) :
    (jsMapGet (taskCountsStep m acc t) cid).getD (0, 0)
      = (((jsMapGet acc cid).getD (0, 0)).1
           + (if jsMapGet m t.taskListId == some cid then 1 else 0),
         ((jsMapGet acc cid).getD (0, 0)).2
           + (if (jsMapGet m t.taskListId == some cid) && t.isCompleted
              then 1 else 0)) := by
  cases hm : jsMapGet m t.taskListId with
  | none => simp [taskCountsStep, hm]
  | some c2 =>
      simp only [taskCountsStep, hm]
      by_cases hc : cid = c2
      · subst hc
        cases hcomp : t.isCompleted with
        | true => simp [jsMapGet_set, hcomp]
        | false => simp [jsMapGet_set, hcomp]
      · have hb : (some c2 == some cid) = false := by
          simp
          exact fun h => hc h.symm
        simp [jsMapGet_set, hc, hb]

/-- The task-count fold computes, for every card id, the number of tasks
whose taskList resolves to that card, and the number of those that are
completed. -/
theorem buildTaskCounts_valGet (m : List (String × String))
    (tasks : List Task) (acc : List (String × (Nat × Nat))) (cid : String) :
    (jsMapGet (tasks.foldl (taskCountsStep m) acc) cid).getD (0, 0)
      = (((jsMapGet acc cid).getD (0, 0)).1
           + tasks.countP (fun t => jsMapGet m t.taskListId == some cid),
         ((jsMapGet acc cid).getD (0, 0)).2
           + tasks.countP
               (fun t => (jsMapGet m t.taskListId == some cid)
                 && t.isCompleted)) := by
  induction tasks generalizing acc with
  | nil => simp
  | cons t rest ih =>
      simp only [List.foldl_cons, ih, taskCountsStep_valGet,
        List.countP_cons]
      rw [Prod.mk.injEq]
      constructor
      all_goals omega

/-- Projecting the underlying card out of a decorated card is the
identity. -/
theorem map_decorate_toCard (f g : Card → Nat) (l : List Card) :
    List.map (fun card =>
      ((⟨card, f card, g card⟩ : CardWithTaskCounts)).toCard) l = l := by
  induction l with
  | nil => rfl
  | cons a as ih => simp [ih]

/-- C4: in `getBoardWithTaskCounts`, the cards pass through undisturbed
(additive decoration) and each card's `taskCount` / `completedTaskCount`
equals the number of included tasks (resp. completed tasks) whose
`taskListId` belongs to an included TaskList whose `cardId` is that card.
Tasks whose taskList is unknown count for no card, and no task counts
toward a different card. -/
theorem C4_task_counts (board : Board) (included : BoardIncluded)
    (hnd : (included.taskLists.map TaskList.id).Nodup) :
    (getBoardWithTaskCounts board included).cards.map
        CardWithTaskCounts.toCard = included.cards ∧
    ∀ cw ∈ (getBoardWithTaskCounts board included).cards,
      cw.taskCount
        = included.tasks.countP
            (fun t => included.taskLists.any
              (fun tl => tl.id == t.taskListId && tl.cardId == cw.id)) ∧
      cw.completedTaskCount
        = included.tasks.countP
            (fun t => (included.taskLists.any
              (fun tl => tl.id == t.taskListId && tl.cardId == cw.id))
              && t.isCompleted) := by
  have hperm : List.Perm (insertionSort taskListLe included.taskLists)
      included.taskLists := insertionSort_perm taskListLe included.taskLists
  have hnd2 : ((insertionSort taskListLe included.taskLists).map
      TaskList.id).Nodup := ((hperm.map TaskList.id).nodup_iff).mpr hnd
  have hpred : ∀ (cid : String) (t : Task),
      (jsMapGet (buildTaskListToCard
          (insertionSort taskListLe included.taskLists)) t.taskListId
        == some cid)
        = included.taskLists.any
            (fun tl => tl.id == t.taskListId && tl.cardId == cid) := by
    intro cid t
    rw [Bool.eq_iff_iff, beq_iff_eq, List.any_eq_true,
      buildTaskListToCard_lookup _ hnd2]
    constructor
    · rintro ⟨tl, htl, h1, h2⟩
      exact ⟨tl, hperm.mem_iff.mp htl, by simp [h1, h2]⟩
    · rintro ⟨tl, htl, hb⟩
      rw [Bool.and_eq_true, beq_iff_eq, beq_iff_eq] at hb
      exact ⟨tl, hperm.mem_iff.mpr htl, hb.1, hb.2⟩
  constructor
  · simp only [getBoardWithTaskCounts, getBoard, List.map_map, Function.comp]
    exact map_decorate_toCard _ _ _
  · intro cw hcw
    simp only [getBoardWithTaskCounts, getBoard, List.mem_map] at hcw
    obtain ⟨c, hc, rfl⟩ := hcw
    have hcounts := buildTaskCounts_valGet
      (buildTaskListToCard (insertionSort taskListLe included.taskLists))
      included.tasks [] c.id
    constructor
    · show ((jsMapGet (buildTaskCountsByCard _ _) c.id).getD (0, 0)).1 = _
      rw [buildTaskCountsByCard, hcounts]
      simp only [jsMapGet, Option.getD_none, Nat.zero_add]
      exact List.countP_congr (fun t ht => by rw [hpred c.id t])
    · show ((jsMapGet (buildTaskCountsByCard _ _) c.id).getD (0, 0)).2 = _
      rw [buildTaskCountsByCard, hcounts]
      simp only [jsMapGet, Option.getD_none, Nat.zero_add]
      refine List.countP_congr (fun t ht => ?_)
      rw [hpred c.id t]

/-- A concrete board used by closed statements. -/
def sampleBoard : Board := ⟨"b1", "p1", "Board", 65536⟩

/-- A concrete included-entity bag: two cards with a taskList each, three
resolvable tasks and one task whose taskList is unknown. -/
def sampleIncluded : BoardIncluded :=
  ⟨[],
   [⟨"c1", "b1", "l1", "Card one", 65536, "project", false⟩,
    ⟨"c2", "b1", "l1", "Card two", 131072, "project", false⟩],
   [], [],
   [⟨"tl1", "c1", "Tasks", 65536⟩, ⟨"tl2", "c2", "Tasks", 65536⟩],
   [⟨"t1", "tl1", "A", 65536, true⟩,
    ⟨"t2", "tl1", "B", 131072, false⟩,
    ⟨"t3", "tl2", "C", 65536, false⟩,
    ⟨"t4", "ghost", "D", 65536, true⟩]⟩

/-- Witness for `C4_task_counts` on `sampleIncluded`: tasks are counted
per card through the TaskList indirection with no cross-card leakage. -/
theorem C4_task_counts_witness :
    (sampleIncluded.taskLists.map TaskList.id).Nodup ∧
    ((getBoardWithTaskCounts sampleBoard sampleIncluded).cards.map
        CardWithTaskCounts.toCard = sampleIncluded.cards ∧
      ∀ cw ∈ (getBoardWithTaskCounts sampleBoard sampleIncluded).cards,
        cw.taskCount
          = sampleIncluded.tasks.countP
              (fun t => sampleIncluded.taskLists.any
                (fun tl => tl.id == t.taskListId && tl.cardId == cw.id)) ∧
        cw.completedTaskCount
          = sampleIncluded.tasks.countP
              (fun t => (sampleIncluded.taskLists.any
                (fun tl => tl.id == t.taskListId && tl.cardId == cw.id))
                && t.isCompleted)) :=
  ⟨by decide, C4_task_counts sampleBoard sampleIncluded (by decide)⟩

/-! ## Structure assembly (src/operations/projects.ts and the
`planka_get_structure` tool handler)

`getStructure` fans out one board-details call per board (modelled by the
`boardLists` oracle), sorts lists by `(a.position ?? 0) - (b.position ?? 0)`
and boards by position; the tool handler then formats the result for the
user, filtering out lists with a null name (archive/trash). -/

/-- Comparator for `getStructure` lists: null position counts as 0. -/
def posZeroLe (a b : Option Int) : Bool := a.getD 0 ≤ b.getD 0

/-- List comparator used inside `getStructure`. -/
def structListLe (a b : BoardList) : Bool := posZeroLe a.position b.position

/-- Board-with-lists comparator `a.board.position - b.board.position`. -/
def boardPairLe (a b : Board × List BoardList) : Bool :=
  a.1.position ≤ b.1.position

/-- The `ProjectStructure`. -/
structure ProjectStructure where
  project : Project
  boards : List (Board × List BoardList)
deriving DecidableEq, Repr

/-- The `getStructure(projectId?)`: filter projects, group boards by project,
fetch each board's lists (`boardLists` oracle), sort lists and boards. -/
def getStructure (projects : List Project) (boards : List Board)
    (boardLists : String → List BoardList) (projectId : Option String) :
    List ProjectStructure :=
  let targetProjects : List Project :=
    match projectId with
    | some pid => projects.filter (fun p => p.id == pid)
    | none => projects
  targetProjects.map (fun project =>
    let projectBoards : List Board :=
      boards.filter (fun b => b.projectId == project.id)
    let boardsWithLists : List (Board × List BoardList) :=
      projectBoards.map (fun board =>
        (board, insertionSort structListLe (boardLists board.id)))
    ⟨project, insertionSort boardPairLe boardsWithLists⟩)

/-- List entry of the formatted (user-facing) structure view. -/
structure FmtList where
  id : String
  name : Option String
deriving DecidableEq, Repr

/-- Board entry of the formatted structure view. -/
structure FmtBoard where
  id : String
  name : String
  lists : List FmtList
deriving DecidableEq, Repr

/-- Project entry of the formatted structure view. -/
structure FmtProject where
  projectId : String
  projectName : String
  boards : List FmtBoard
deriving DecidableEq, Repr

/-- The `planka_get_structure` handler formatting: map each structure to
`{project, boards}` and drop every list whose name is null
(`.filter((l) => l.name !== null)`). -/
def formatStructure (structures : List ProjectStructure) : List FmtProject :=
  structures.map (fun ps =>
    ⟨ps.project.id, ps.project.name,
     ps.boards.map (fun bl =>
       ⟨bl.1.id, bl.1.name,
        (bl.2.filter (fun l => l.name.isSome)).map
          (fun l => ⟨l.id, l.name⟩)⟩)⟩)

/-- C8: in the user-facing structure view, no list with a null name
appears, and every fetched list with a non-null name is retained. -/
theorem C8_null_name_lists_filtered (projects : List Project)
    (boards : List Board) (boardLists : String → List BoardList)
    (projectId : Option String) :
    ∀ fp ∈ formatStructure
        (getStructure projects boards boardLists projectId),
      ∀ fb ∈ fp.boards,
        (∀ fl ∈ fb.lists, fl.name ≠ none) ∧
        (∀ l ∈ boardLists fb.id, l.name ≠ none →
          (⟨l.id, l.name⟩ : FmtList) ∈ fb.lists) := by
  intro fp hfp fb hfb
  simp only [formatStructure, List.mem_map] at hfp
  obtain ⟨ps, hps, rfl⟩ := hfp
  simp only [List.mem_map] at hfb
  obtain ⟨bl, hbl, rfl⟩ := hfb
  simp only [getStructure, List.mem_map] at hps
  obtain ⟨project, hproject, rfl⟩ := hps
  have hbl2 := (insertionSort_perm boardPairLe _).mem_iff.mp hbl
  simp only [List.mem_map] at hbl2
  obtain ⟨board, hboard, rfl⟩ := hbl2
  constructor
  · intro fl hfl
    simp only [List.mem_map] at hfl
    obtain ⟨l, hl, rfl⟩ := hfl
    have := (List.mem_filter.mp hl).2
    simp only [ne_eq]
    cases hn : l.name with
    | none => rw [hn] at this; simp at this
    | some v => simp
  · intro l hl hname
    refine List.mem_map.mpr ⟨l, List.mem_filter.mpr ⟨?_, ?_⟩, rfl⟩
    · exact (insertionSort_perm structListLe _).mem_iff.mpr hl
    · cases hn : l.name with
      | none => exact absurd hn hname
      | some v => simp

/-- Concrete inputs for the structure-view witnesses. -/
def sampleProjects : List Project := [⟨"p1", "Proj"⟩]

/-- One board belonging to the sample project. -/
def sampleBoards : List Board := [⟨"b1", "p1", "Board", 65536⟩]

/-- Board-details oracle: one named list and one null-name archive list. -/
def sampleBoardLists : String → List BoardList := fun _ =>
  [⟨"l1", "b1", some "To Do", some 65536⟩, ⟨"larc", "b1", none, none⟩]

/-- Witness for `C8_null_name_lists_filtered`: the archive list is dropped
while the named list is retained. -/
theorem C8_null_name_lists_filtered_witness :
    (∀ fl ∈ (⟨"b1", "Board", [⟨"l1", some "To Do"⟩]⟩ : FmtBoard).lists,
      fl.name ≠ none) ∧
    (⟨"l1", some "To Do"⟩ : FmtList)
      ∈ (⟨"b1", "Board", [⟨"l1", some "To Do"⟩]⟩ : FmtBoard).lists := by
  have h := C8_null_name_lists_filtered sampleProjects sampleBoards
    sampleBoardLists none
    ⟨"p1", "Proj", [⟨"b1", "Board", [⟨"l1", some "To Do"⟩]⟩]⟩ (by decide)
    ⟨"b1", "Board", [⟨"l1", some "To Do"⟩]⟩ (by decide)
  exact ⟨h.1, h.2 ⟨"l1", "b1", some "To Do", some 65536⟩ (by decide)
    (by decide)⟩

/-! ## Task operations (operations/tasks.ts)

`createTask`/`createTasks` auto-provision a default task-list named "Tasks"
when the card has none.  `getCard` is modelled by the `fetchedTaskLists`
oracle (the card's taskLists as returned by the server, which `getCard`
sorts by position); `createdTaskList` and `resp` stand for the server's
responses to the creation POSTs. -/

/-- Task item of a `BatchCreateTasksSchema` input. -/
structure TaskInput where
  name : String
  position : Option Int
deriving DecidableEq, Repr

/-- The `BatchCreateTasksSchema.parse`: every task name nonempty. -/
def parseBatchCreateTasks (tasks : List TaskInput) :
    Except String (List TaskInput) :=
  if tasks.all (fun t => 1 ≤ t.name.length) then .ok tasks
  else .error "String must contain at least 1 character"

/-- The `CreateTaskSchema.parse`: nonempty name, position defaulting 65536. -/
def parseCreateTask (name : String) (position : Option Int) :
    Except String (String × Int) :=
  if 1 ≤ name.length then .ok (name, position.getD 65536)
  else .error "Task name required"

/-- The `getOrCreateDefaultTaskList`: fetch the card (whose taskLists arrive
sorted by `getCard`), return the first task-list sorted by position if any
exists, else POST a task-list named "Tasks" at position 65536. -/
def getOrCreateDefaultTaskList (cardId : String)
    (fetchedTaskLists : List TaskList) (createdTaskList : TaskList) :
    TaskList × List ApiReq :=
  let cardTaskLists := insertionSort taskListLe fetchedTaskLists
  match insertionSort taskListLe cardTaskLists with
  | tl :: _ => (tl, [.getCard cardId])
  | [] =>
      (createdTaskList,
       [.getCard cardId, .postTaskList cardId "Tasks" 65536])

/-- The `createTasks` loop: POST each task to the chosen task-list, with
position `taskInput.position ?? position` where the running `position`
starts at 65536 and steps by 65536. -/
def createTasksLoop (taskListId : String) (inputs : List TaskInput)
    (position : Int) (resp : Nat → Task) (idx : Nat) :
    List Task × List ApiReq :=
  match inputs with
  | [] => ([], [])
  | ti :: rest =>
      let t := resp idx
      let (ts, rs) := createTasksLoop taskListId rest (position + 65536)
        resp (idx + 1)
      (t :: ts, .postTask taskListId ti.name (ti.position.getD position) :: rs)

/-- The `createTasks`: validate, get or create the default task-list, then
create the tasks in order. -/
def createTasks (cardId : String) (taskInputs : List TaskInput)
    (fetchedTaskLists : List TaskList) (createdTaskList : TaskList)
    (resp : Nat → Task) : Except String (List Task × List ApiReq) :=
  match parseBatchCreateTasks taskInputs with
  | .error e => .error e
  | .ok validated =>
      let (taskList, reqs0) :=
        getOrCreateDefaultTaskList cardId fetchedTaskLists createdTaskList
      let (tasks, reqs1) := createTasksLoop taskList.id validated 65536 resp 0
      .ok (tasks, reqs0 ++ reqs1)

/-- The `createTask`: validate, get or create the default task-list, then
create the single task. -/
def createTask (cardId : String) (name : String) (position : Option Int)
    (fetchedTaskLists : List TaskList) (createdTaskList : TaskList)
    (respTask : Task) : Except String (Task × List ApiReq) :=
  match parseCreateTask name position with
  | .error e => .error e
  | .ok v =>
      let (taskList, reqs0) :=
        getOrCreateDefaultTaskList cardId fetchedTaskLists createdTaskList
      .ok (respTask, reqs0 ++ [.postTask taskList.id v.1 v.2])

/-- Recognizer for task-list creation requests. -/
def ApiReq.isPostTaskList : ApiReq → Bool
  | .postTaskList _ _ _ => true
  | _ => false

/-- With no existing task-list, `getOrCreateDefaultTaskList` creates one
named "Tasks" at position 65536. -/
theorem getOrCreateDefaultTaskList_empty (cardId : String)
    (created : TaskList) :
    getOrCreateDefaultTaskList cardId [] created
      = (created, [.getCard cardId, .postTaskList cardId "Tasks" 65536]) :=
  rfl

/-- With an existing task-list, `getOrCreateDefaultTaskList` returns one of
the card's own task-lists and performs no creation. -/
theorem getOrCreateDefaultTaskList_nonempty (cardId : String)
    (fetched : List TaskList) (created : TaskList) (hne : fetched ≠ []) :
    ∃ tl ∈ fetched,
      getOrCreateDefaultTaskList cardId fetched created
        = (tl, [.getCard cardId]) := by
  have hperm : List.Perm
      (insertionSort taskListLe (insertionSort taskListLe fetched))
      fetched :=
    (insertionSort_perm taskListLe _).trans (insertionSort_perm taskListLe _)
  cases hs : insertionSort taskListLe (insertionSort taskListLe fetched) with
  | nil =>
      rw [hs] at hperm
      exact absurd hperm.symm.eq_nil hne
  | cons tl rest =>
      refine ⟨tl, ?_, ?_⟩
      · rw [hs] at hperm
        exact hperm.mem_iff.mp (List.mem_cons_self tl rest)
      · simp only [getOrCreateDefaultTaskList, hs]

/-- Every request issued by the `createTasks` loop is a task POST to the
chosen task-list. -/
theorem createTasksLoop_reqs (taskListId : String) (inputs : List TaskInput)
    (position : Int) (resp : Nat → Task) (idx : Nat) :
    ∀ r ∈ (createTasksLoop taskListId inputs position resp idx).2,
      ∃ n p, r = .postTask taskListId n p := by
  induction inputs generalizing position idx with
  | nil => simp [createTasksLoop]
  | cons ti rest ih =>
      intro r hr
      simp only [createTasksLoop, List.mem_cons] at hr
      rcases hr with hr | hr
      · exact ⟨ti.name, ti.position.getD position, hr⟩
      · exact ih (position + 65536) (idx + 1) r hr

/-- C5: task creation on a card with zero task-lists first creates exactly
one task-list named "Tasks" (before any task POST); on a card with at
least one task-list no task-list is created and the tasks are posted to
one of the card's existing task-lists.  Holds for both `createTasks` and
`createTask`. -/
theorem C5_default_tasklist_creation (cardId : String)
    (taskInputs : List TaskInput) (fetched : List TaskList)
    (created : TaskList) (resp : Nat → Task)
    (hnames : ∀ ti ∈ taskInputs, 1 ≤ ti.name.length) :
    (fetched = [] →
      ∃ ts rest, createTasks cardId taskInputs fetched created resp
          = .ok (ts, .getCard cardId
              :: .postTaskList cardId "Tasks" 65536 :: rest) ∧
        ∀ r ∈ rest, ∃ n p, r = .postTask created.id n p) ∧
    (fetched ≠ [] →
      ∃ tl ∈ fetched, ∃ ts rest,
        createTasks cardId taskInputs fetched created resp
          = .ok (ts, .getCard cardId :: rest) ∧
        ∀ r ∈ rest, ∃ n p, r = .postTask tl.id n p) ∧
    (∀ (name : String) (pos : Option Int) (respTask : Task),
      1 ≤ name.length →
      (fetched = [] →
        createTask cardId name pos fetched created respTask
          = .ok (respTask,
              [.getCard cardId, .postTaskList cardId "Tasks" 65536,
               .postTask created.id name (pos.getD 65536)])) ∧
      (fetched ≠ [] →
        ∃ tl ∈ fetched,
          createTask cardId name pos fetched created respTask
            = .ok (respTask,
                [.getCard cardId,
                 .postTask tl.id name (pos.getD 65536)]))) := by
  have hall : taskInputs.all (fun t => 1 ≤ t.name.length) = true := by
    rw [List.all_eq_true]
    intro t ht
    simpa using hnames t ht
  have hparse : parseBatchCreateTasks taskInputs = .ok taskInputs := by
    simp [parseBatchCreateTasks, hall]
  refine ⟨?_, ?_, ?_⟩
  · intro hemp
    subst hemp
    refine ⟨(createTasksLoop created.id taskInputs 65536 resp 0).1,
      (createTasksLoop created.id taskInputs 65536 resp 0).2, ?_,
      createTasksLoop_reqs created.id taskInputs 65536 resp 0⟩
    simp [createTasks, hparse, getOrCreateDefaultTaskList, insertionSort]
  · intro hne
    obtain ⟨tl, htl, heq⟩ :=
      getOrCreateDefaultTaskList_nonempty cardId fetched created hne
    refine ⟨tl, htl, (createTasksLoop tl.id taskInputs 65536 resp 0).1,
      (createTasksLoop tl.id taskInputs 65536 resp 0).2, ?_,
      createTasksLoop_reqs tl.id taskInputs 65536 resp 0⟩
    simp [createTasks, hparse, heq]
  · intro name pos respTask hn1
    have hp : parseCreateTask name pos = .ok (name, pos.getD 65536) := by
      simp [parseCreateTask, hn1]
    constructor
    · intro hemp
      subst hemp
      simp [createTask, hp, getOrCreateDefaultTaskList, insertionSort]
    · intro hne
      obtain ⟨tl, htl, heq⟩ :=
        getOrCreateDefaultTaskList_nonempty cardId fetched created hne
      exact ⟨tl, htl, by simp [createTask, hp, heq]⟩

/-- Server response oracle for the sample task-creation witnesses. -/
def sampleTaskList : TaskList := ⟨"tlNew", "c1", "Tasks", 65536⟩

/-- Two task inputs without explicit positions. -/
def sampleTaskInputs : List TaskInput := [⟨"Step 1", none⟩, ⟨"Step 2", none⟩]

/-- Task response oracle. -/
def sampleTaskResp : Nat → Task := fun _ => ⟨"t0", "tlNew", "X", 65536, false⟩

/-- Witness for `C5_default_tasklist_creation`: creating two tasks on a
card with no task-list first creates the "Tasks" list. -/
theorem C5_default_tasklist_creation_witness :
    (∀ ti ∈ sampleTaskInputs, 1 ≤ ti.name.length) ∧
    (∃ ts rest,
      createTasks "c1" sampleTaskInputs [] sampleTaskList sampleTaskResp
        = .ok (ts, .getCard "c1"
            :: .postTaskList "c1" "Tasks" 65536 :: rest) ∧
      ∀ r ∈ rest, ∃ n p, r = .postTask sampleTaskList.id n p) :=
  ⟨by decide,
   (C5_default_tasklist_creation "c1" sampleTaskInputs [] sampleTaskList
     sampleTaskResp (by decide)).1 rfl⟩

/-! ## Label attach/detach operations (operations/labels.ts)

The remote service is modelled by a `LabelServer`: its junction records,
a fresh-id counter, and failure-injection oracles.  A duplicate attach is
rejected by the model server with a message containing "already" (the
situation the code's `message.includes("already")` check targets);
`addFail` injects arbitrary other failures, and the two delete oracles
make the direct / nested card-label delete endpoints fail on demand. -/

/-- Model of the remote service state for card-label operations. -/
structure LabelServer where
  cardLabels : List CardLabel
  nextId : Nat
  addFail : String → Option String
  directDeleteFail : String → Option String
  nestedDeleteFail : String → Option String

/-- Is `labelId` attached to `cardId`? -/
def attached (s : LabelServer) (cardId labelId : String) : Bool :=
  s.cardLabels.any (fun cl => cl.cardId == cardId && cl.labelId == labelId)

/-- The `addLabelToCard`: POST `/api/cards/:cardId/card-labels`.  The model
server rejects a duplicate attach with an "already"-message; `addFail`
injects any other failure. -/
def addLabelToCard (s : LabelServer) (cardId labelId : String) :
    Except String (LabelServer × CardLabel) :=
  match s.addFail labelId with
  | some m => .error m
  | none =>
      if attached s cardId labelId then .error "Label already on card"
      else
        let newCl : CardLabel := ⟨"cl" ++ toString s.nextId, cardId, labelId⟩
        .ok ({ s with cardLabels := s.cardLabels ++ [newCl],
                      nextId := s.nextId + 1 }, newCl)

/-- The `removeLabelFromCard`: re-fetch the card, scan its CardLabel set for
the requested label id; silent no-op if absent; else try the direct
junction delete and fall back to the nested delete, failing only when both
fail. -/
def removeLabelFromCard (s : LabelServer) (cardId labelId : String) :
    Except String (LabelServer × List ApiReq) :=
  let fetched := s.cardLabels.filter (fun cl => cl.cardId == cardId)
  match fetched.find? (fun cl => cl.labelId == labelId) with
  | none => .ok (s, [.getCard cardId])
  | some cl =>
      match s.directDeleteFail cl.id with
      | none =>
          .ok ({ s with cardLabels :=
                   s.cardLabels.filter (fun r => !(r.id == cl.id)) },
               [.getCard cardId, .deleteCardLabel cl.id])
      | some _ =>
          match s.nestedDeleteFail cl.id with
          | none =>
              .ok ({ s with cardLabels :=
                       s.cardLabels.filter (fun r => !(r.id == cl.id)) },
                   [.getCard cardId, .deleteCardLabel cl.id,
                    .deleteCardLabelNested cardId cl.id])
          | some e2 => .error e2

/-- Does `needle` occur at the head of `hay`? -/
def matchesAt (needle hay : List Char) : Bool :=
  match needle, hay with
  | [], _ => true
  | _ :: _, [] => false
  | a :: as, b :: bs => a == b && matchesAt as bs

/-- Does `needle` occur anywhere in `hay`? -/
def hasSub (needle : List Char) : List Char → Bool
  | [] => matchesAt needle []
  | b :: bs => matchesAt needle (b :: bs) || hasSub needle bs

/-- JS `message.includes("already")`: substring containment. -/
def msgContainsAlready (m : String) : Bool :=
  hasSub "already".toList m.toList

/-- The removal phase of `setCardLabels`: `removeLabelFromCard` for each id
in order, propagating failures. -/
def setCardLabelsRemoveLoop (s : LabelServer) (cardId : String)
    (removeIds : List String) : Except String (LabelServer × List ApiReq) :=
  match removeIds with
  | [] => .ok (s, [])
  | l :: rest =>
      match removeLabelFromCard s cardId l with
      | .error e => .error e
      | .ok (s2, tr) =>
          match setCardLabelsRemoveLoop s2 cardId rest with
          | .error e => .error e
          | .ok (s3, tr2) => .ok (s3, tr ++ tr2)

/-- The addition phase of `setCardLabels`: `addLabelToCard` for each id in
order; a failure whose message contains "already" is swallowed, any other
failure propagates. -/
def setCardLabelsAddLoop (s : LabelServer) (cardId : String)
    (addIds : List String) : Except String (LabelServer × List ApiReq) :=
  match addIds with
  | [] => .ok (s, [])
  | l :: rest =>
      match addLabelToCard s cardId l with
      | .ok (s2, _) =>
          match setCardLabelsAddLoop s2 cardId rest with
          | .error e => .error e
          | .ok (s3, tr2) => .ok (s3, .postCardLabel cardId l :: tr2)
      | .error m =>
          if msgContainsAlready m then
            match setCardLabelsAddLoop s cardId rest with
            | .error e => .error e
            | .ok (s3, tr2) => .ok (s3, .postCardLabel cardId l :: tr2)
          else .error m

/-- The `setCardLabels(cardId, addLabelIds?, removeLabelIds?)`: removals first,
then additions. -/
def setCardLabels (s : LabelServer) (cardId : String)
    (addLabelIds removeLabelIds : List String) :
    Except String (LabelServer × List ApiReq) :=
  match setCardLabelsRemoveLoop s cardId removeLabelIds with
  | .error e => .error e
  | .ok (s2, tr1) =>
      match setCardLabelsAddLoop s2 cardId addLabelIds with
      | .error e => .error e
      | .ok (s3, tr2) => .ok (s3, tr1 ++ tr2)

/-- A successful fresh attach marks the label attached. -/
theorem attached_after_add (s : LabelServer) (cardId l : String) :
    attached
      { s with cardLabels :=
                 s.cardLabels ++ [⟨"cl" ++ toString s.nextId, cardId, l⟩],
               nextId := s.nextId + 1 } cardId l = true := by
  simp [attached, List.any_append]

/-- Attachments survive a fresh attach of another label. -/
theorem attached_mono_add (s : LabelServer) (cardId l x : String)
    (hx : attached s cardId x = true) :
    attached
      { s with cardLabels :=
                 s.cardLabels ++ [⟨"cl" ++ toString s.nextId, cardId, l⟩],
               nextId := s.nextId + 1 } cardId x = true := by
  simp only [attached, List.any_append, Bool.or_eq_true]
  exact Or.inl hx

/-- The addition loop succeeds when every injected failure message contains
"already"; it posts each label in order, every label whose add was not
injected to fail ends attached, and prior attachments survive. -/
theorem setCardLabelsAddLoop_spec (cardId : String) :
    ∀ (addIds : List String) (s : LabelServer),
      (∀ l ∈ addIds, s.addFail l = none ∨
        ∃ m, s.addFail l = some m ∧ msgContainsAlready m = true) →
      ∃ s3 tr, setCardLabelsAddLoop s cardId addIds = .ok (s3, tr) ∧
        tr = addIds.map (ApiReq.postCardLabel cardId) ∧
        (∀ l ∈ addIds, s.addFail l = none →
          attached s3 cardId l = true) ∧
        (∀ x, attached s cardId x = true → attached s3 cardId x = true) ∧
        s3.addFail = s.addFail := by
  intro addIds
  induction addIds with
  | nil =>
      intro s H
      exact ⟨s, [], rfl, rfl, by simp, fun x h => h, rfl⟩
  | cons l rest ih =>
      intro s H
      have Hrest : ∀ x ∈ rest, s.addFail x = none ∨
          ∃ m, s.addFail x = some m ∧ msgContainsAlready m = true :=
        fun x hx => H x (List.mem_cons_of_mem l hx)
      rcases H l (List.mem_cons_self l rest) with hnone | ⟨m, hm, hal⟩
      · by_cases hatt : attached s cardId l = true
        · have hmsg : msgContainsAlready "Label already on card" = true := by
            decide
          obtain ⟨s3, tr, heq, htr, hadd, hmono, hfail⟩ := ih s Hrest
          refine ⟨s3, .postCardLabel cardId l :: tr, ?_, by simp [htr],
            ?_, hmono, hfail⟩
          · simp [setCardLabelsAddLoop, addLabelToCard, hnone, hatt,
              hmsg, heq]
          · intro x hx hfx
            rcases List.mem_cons.mp hx with rfl | hx2
            · exact hmono x hatt
            · exact hadd x hx2 hfx
        · obtain ⟨s3, tr, heq, htr, hadd, hmono, hfail⟩ :=
            ih { s with cardLabels := s.cardLabels
                          ++ [⟨"cl" ++ toString s.nextId, cardId, l⟩],
                        nextId := s.nextId + 1 } Hrest
          refine ⟨s3, .postCardLabel cardId l :: tr, ?_, by simp [htr],
            ?_, ?_, hfail⟩
          · simp [setCardLabelsAddLoop, addLabelToCard, hnone, hatt, heq]
          · intro x hx hfx
            rcases List.mem_cons.mp hx with rfl | hx2
            · exact hmono x (attached_after_add s cardId x)
            · exact hadd x hx2 hfx
          · intro x hx
            exact hmono x (attached_mono_add s cardId l x hx)
      · obtain ⟨s3, tr, heq, htr, hadd, hmono, hfail⟩ := ih s Hrest
        refine ⟨s3, .postCardLabel cardId l :: tr, ?_, by simp [htr],
          ?_, hmono, hfail⟩
        · simp [setCardLabelsAddLoop, addLabelToCard, hm, hal, heq]
        · intro x hx hfx
          rcases List.mem_cons.mp hx with rfl | hx2
          · rw [hfx] at hm
            exact absurd hm (by simp)
          · exact hadd x hx2 hfx

/-- The addition loop propagates an injected failure whose message does not
contain "already". -/
theorem setCardLabelsAddLoop_propagates (cardId lf m : String)
    (hnal : msgContainsAlready m = false) :
    ∀ (addIds : List String) (s : LabelServer), lf ∈ addIds →
      s.addFail = (fun x => if x = lf then some m else none) →
      setCardLabelsAddLoop s cardId addIds = .error m := by
  intro addIds
  induction addIds with
  | nil =>
      intro s hmem _
      exact absurd hmem (List.not_mem_nil lf)
  | cons l rest ih =>
      intro s hmem hf
      by_cases hl : l = lf
      · subst hl
        have hsome : s.addFail l = some m := by rw [hf]; simp
        simp [setCardLabelsAddLoop, addLabelToCard, hsome, hnal]
      · have hnone : s.addFail l = none := by rw [hf]; simp [hl]
        have hmem2 : lf ∈ rest := by
          rcases List.mem_cons.mp hmem with h | h
          · exact absurd h.symm hl
          · exact h
        by_cases hatt : attached s cardId l = true
        · have hmsg : msgContainsAlready "Label already on card" = true := by
            decide
          have hrec := ih s hmem2 hf
          simp [setCardLabelsAddLoop, addLabelToCard, hnone, hatt, hmsg,
            hrec]
        · have hrec := ih
            { s with cardLabels := s.cardLabels
                       ++ [⟨"cl" ++ toString s.nextId, cardId, l⟩],
                     nextId := s.nextId + 1 } hmem2 hf
          simp [setCardLabelsAddLoop, addLabelToCard, hnone, hatt, hrec]

/-- With no direct-delete failures, `removeLabelFromCard` succeeds, its
trace is a card fetch possibly followed by a junction delete, and the
failure oracles are unchanged. -/
theorem removeLabelFromCard_ok (s : LabelServer) (cardId labelId : String)
    (hdel : ∀ clId, s.directDeleteFail clId = none) :
    ∃ s2 tr, removeLabelFromCard s cardId labelId = .ok (s2, tr) ∧
      (∀ r ∈ tr, r = .getCard cardId ∨ ∃ clId, r = .deleteCardLabel clId) ∧
      s2.addFail = s.addFail ∧
      s2.directDeleteFail = s.directDeleteFail := by
  cases hf : (s.cardLabels.filter (fun cl => cl.cardId == cardId)).find?
      (fun cl => cl.labelId == labelId) with
  | none =>
      refine ⟨s, [.getCard cardId], ?_, ?_, rfl, rfl⟩
      · simp [removeLabelFromCard, hf]
      · intro r hr
        rcases List.mem_cons.mp hr with rfl | hr2
        · exact Or.inl rfl
        · exact absurd hr2 (List.not_mem_nil r)
  | some cl =>
      refine ⟨{ s with cardLabels :=
          s.cardLabels.filter (fun r => !(r.id == cl.id)) },
        [.getCard cardId, .deleteCardLabel cl.id], ?_, ?_, rfl, rfl⟩
      · simp [removeLabelFromCard, hf, hdel cl.id]
      · intro r hr
        rcases List.mem_cons.mp hr with rfl | hr2
        · exact Or.inl rfl
        · rcases List.mem_cons.mp hr2 with rfl | hr3
          · exact Or.inr ⟨cl.id, rfl⟩
          · exact absurd hr3 (List.not_mem_nil r)

/-- With no direct-delete failures, the removal loop succeeds, its trace
consists of card fetches and junction deletes only, and the failure
oracles are unchanged. -/
theorem setCardLabelsRemoveLoop_ok (cardId : String) :
    ∀ (removeIds : List String) (s : LabelServer),
      (∀ clId, s.directDeleteFail clId = none) →
      ∃ s2 tr, setCardLabelsRemoveLoop s cardId removeIds = .ok (s2, tr) ∧
        (∀ r ∈ tr,
          r = .getCard cardId ∨ ∃ clId, r = .deleteCardLabel clId) ∧
        s2.addFail = s.addFail ∧
        s2.directDeleteFail = s.directDeleteFail := by
  intro removeIds
  induction removeIds with
  | nil =>
      intro s hdel
      exact ⟨s, [], rfl, by simp, rfl, rfl⟩
  | cons l rest ih =>
      intro s hdel
      obtain ⟨s2, tr, heq, htr, hfa, hfd⟩ :=
        removeLabelFromCard_ok s cardId l hdel
      have hdel2 : ∀ clId, s2.directDeleteFail clId = none := by
        intro clId
        rw [hfd]
        exact hdel clId
      obtain ⟨s3, tr2, heq2, htr2, hfa2, hfd2⟩ := ih s2 hdel2
      refine ⟨s3, tr ++ tr2, ?_, ?_, hfa2.trans hfa, hfd2.trans hfd⟩
      · simp [setCardLabelsRemoveLoop, heq, heq2]
      · intro r hr
        rcases List.mem_append.mp hr with hr2 | hr2
        · exact htr r hr2
        · exact htr2 r hr2

/-- C6: `setCardLabels` applies all removals before any addition (the trace
is removal-phase requests followed by the label POSTs in order), so every
label in `addLabelIds` — including one also listed in `removeLabelIds` —
ends up attached; an addition failure whose message contains "already" is
treated as success, while any other addition failure propagates. -/
theorem C6_set_card_labels_order (s : LabelServer) (cardId : String)
    (addIds removeIds : List String)
    (hdel : ∀ clId, s.directDeleteFail clId = none) :
    ((∀ l, s.addFail l = none) →
      ∃ s2 tr1 tr2,
        setCardLabels s cardId addIds removeIds = .ok (s2, tr1 ++ tr2) ∧
        (∀ r ∈ tr1,
          r = .getCard cardId ∨ ∃ clId, r = .deleteCardLabel clId) ∧
        tr2 = addIds.map (ApiReq.postCardLabel cardId) ∧
        (∀ l ∈ addIds, attached s2 cardId l = true)) ∧
    (∀ lf m, lf ∈ addIds →
      s.addFail = (fun x => if x = lf then some m else none) →
      msgContainsAlready m = false →
      setCardLabels s cardId addIds removeIds = .error m) ∧
    (∀ lf m, s.addFail = (fun x => if x = lf then some m else none) →
      msgContainsAlready m = true →
      ∃ s2 tr, setCardLabels s cardId addIds removeIds = .ok (s2, tr)) := by
  refine ⟨?_, ?_, ?_⟩
  · intro hnof
    obtain ⟨s2, tr1, heqR, htr1, hfa, hfd⟩ :=
      setCardLabelsRemoveLoop_ok cardId removeIds s hdel
    have H : ∀ l ∈ addIds, s2.addFail l = none ∨
        ∃ m, s2.addFail l = some m ∧ msgContainsAlready m = true :=
      fun l _ => Or.inl (by rw [hfa]; exact hnof l)
    obtain ⟨s3, tr2, heqA, htr2, hadd, hmono, hfail⟩ :=
      setCardLabelsAddLoop_spec cardId addIds s2 H
    refine ⟨s3, tr1, tr2, ?_, htr1, htr2, ?_⟩
    · simp [setCardLabels, heqR, heqA]
    · intro l hl
      exact hadd l hl (by rw [hfa]; exact hnof l)
  · intro lf m hmem hf hnal
    obtain ⟨s2, tr1, heqR, htr1, hfa, hfd⟩ :=
      setCardLabelsRemoveLoop_ok cardId removeIds s hdel
    have hf2 : s2.addFail = (fun x => if x = lf then some m else none) :=
      hfa.trans hf
    have hA := setCardLabelsAddLoop_propagates cardId lf m hnal addIds s2
      hmem hf2
    simp [setCardLabels, heqR, hA]
  · intro lf m hf hal
    obtain ⟨s2, tr1, heqR, htr1, hfa, hfd⟩ :=
      setCardLabelsRemoveLoop_ok cardId removeIds s hdel
    have H : ∀ l ∈ addIds, s2.addFail l = none ∨
        ∃ m2, s2.addFail l = some m2 ∧ msgContainsAlready m2 = true := by
      intro l hl
      rw [hfa, hf]
      by_cases hx : l = lf
      · exact Or.inr ⟨m, by simp [hx], hal⟩
      · exact Or.inl (by simp [hx])
    obtain ⟨s3, tr2, heqA, htr2a, htr2b, htr2c, htr2d⟩ :=
      setCardLabelsAddLoop_spec cardId addIds s2 H
    exact ⟨s3, tr1 ++ tr2, by simp [setCardLabels, heqR, heqA]⟩

/-- A model server state with label L1 attached to card c1. -/
def sampleLabelServer : LabelServer :=
  ⟨[⟨"cl1", "c1", "L1"⟩], 2, fun _ => none, fun _ => none, fun _ => none⟩

/-- Witness for `C6_set_card_labels_order`: with L1 in both the add and the
remove lists, L1 ends attached (remove-then-add order). -/
theorem C6_set_card_labels_order_witness :
    ∃ s2 tr1 tr2,
      setCardLabels sampleLabelServer "c1" ["L1"] ["L1"]
        = .ok (s2, tr1 ++ tr2) ∧
      (∀ r ∈ tr1, r = .getCard "c1" ∨ ∃ clId, r = .deleteCardLabel clId) ∧
      tr2 = ["L1"].map (ApiReq.postCardLabel "c1") ∧
      (∀ l ∈ ["L1"], attached s2 "c1" l = true) :=
  (C6_set_card_labels_order sampleLabelServer "c1" ["L1"] ["L1"]
    (fun _ => rfl)).1 (fun _ => rfl)

/-- C7: `removeLabelFromCard` is a silent no-op issuing no delete request
when the fetched card has no matching CardLabel; otherwise the direct
junction delete is attempted first, a failure falls back to the nested
delete, and the operation fails only when both attempts fail. -/
theorem C7_remove_label_fallback (s : LabelServer)
    (cardId labelId : String) :
    ((s.cardLabels.filter (fun cl => cl.cardId == cardId)).find?
        (fun cl => cl.labelId == labelId) = none →
      removeLabelFromCard s cardId labelId = .ok (s, [.getCard cardId])) ∧
    (∀ cl, (s.cardLabels.filter (fun cl2 => cl2.cardId == cardId)).find?
        (fun cl2 => cl2.labelId == labelId) = some cl →
      (s.directDeleteFail cl.id = none →
        removeLabelFromCard s cardId labelId
          = .ok ({ s with cardLabels :=
                     s.cardLabels.filter (fun r => !(r.id == cl.id)) },
                 [.getCard cardId, .deleteCardLabel cl.id])) ∧
      (∀ e1, s.directDeleteFail cl.id = some e1 →
        (s.nestedDeleteFail cl.id = none →
          removeLabelFromCard s cardId labelId
            = .ok ({ s with cardLabels :=
                       s.cardLabels.filter (fun r => !(r.id == cl.id)) },
                   [.getCard cardId, .deleteCardLabel cl.id,
                    .deleteCardLabelNested cardId cl.id])) ∧
        (∀ e2, s.nestedDeleteFail cl.id = some e2 →
          removeLabelFromCard s cardId labelId = .error e2))) := by
  refine ⟨?_, ?_⟩
  · intro hf
    simp [removeLabelFromCard, hf]
  · intro cl hf
    refine ⟨?_, ?_⟩
    · intro hd
      simp [removeLabelFromCard, hf, hd]
    · intro e1 hd
      refine ⟨?_, ?_⟩
      · intro hn
        simp [removeLabelFromCard, hf, hd, hn]
      · intro e2 hn
        simp [removeLabelFromCard, hf, hd, hn]

/-- Witness for `C7_remove_label_fallback`: removing a label that is not on
the card succeeds with only the card fetch in the trace. -/
theorem C7_remove_label_fallback_witness :
    (sampleLabelServer.cardLabels.filter (fun cl => cl.cardId == "c1")).find?
        (fun cl => cl.labelId == "LX") = none ∧
    removeLabelFromCard sampleLabelServer "c1" "LX"
      = .ok (sampleLabelServer, [.getCard "c1"]) :=
  ⟨by decide,
   (C7_remove_label_fallback sampleLabelServer "c1" "LX").1 (by decide)⟩

end Planka
